import Mathlib

/-!
Shallow embedding of `src/anchor-auction/programs/seismic-auction-house/src/lib.rs`
(the `seismic_auction_house` Anchor program).

Modelling conventions:
  * `Pubkey` is an opaque identity, modelled as `Nat`.
  * `u64` amounts are `Nat` (the program only compares and copies them, never
    does arithmetic, so no overflow can occur); `i64` timestamps are `Int`;
    the `status: u8` field is a `Nat` holding the value of
    `AuctionStatus::… as u8`.
  * The SPL `token::transfer` CPI is an external primitive; each instruction
    takes a parameter `transfer_ok : TransferOp → Bool` giving the outcome the
    primitive would produce for a requested move, and records the transfers
    that actually happened in its outcome.
  * Each instruction handler is embedded as a function returning the state of
    the touched records at the point the instruction body returns, with
    mutations applied in program order up to the abort point, together with
    `err : Option ExecError` (the `require!`/`?` early exits).  The Solana
    runtime additionally reverts all record mutations of a failing
    instruction; that committed view is `bidCommitted` / `ixCommitted`.
  * Anchor evaluates the `#[account(constraint = …)]` checks of the accounts
    struct before the handler body runs; the `…_ix` wrappers embed those
    checks (in struct-field order) around the handlers.  In `EndAuction` the
    constraint `bidder_token_account.owner == auction.highest_bidder.unwrap()`
    calls `Option::unwrap` and therefore panics (aborting the whole
    instruction) whenever `highest_bidder` is `None`; this is the
    `ExecError.unwrapNoneAbort` outcome.
-/

/-- An opaque account address / identity (`Pubkey` in the source). -/
abbrev Pubkey := Nat

/-- `enum AuctionStatus { Active, Ended, Cancelled }` from the source. -/
inductive AuctionStatus
  | Active
  | Ended
  | Cancelled
deriving DecidableEq

/-- The value of `AuctionStatus::… as u8` (Rust default discriminants 0,1,2). -/
def AuctionStatus.toU8 : AuctionStatus → Nat
  | .Active => 0
  | .Ended => 1
  | .Cancelled => 2

/-- `enum AuctionHouseError` from the source. -/
inductive AuctionHouseError
  | AuctionNotActive
  | AuctionEnded
  | AuctionNotEnded
  | BidTooLow
  | Unauthorized
deriving DecidableEq

/-- Every way an embedded instruction can abort: a program error raised by
`require!`, a failure of the `token::transfer` CPI propagated by `?`, a false
Anchor account constraint, or a Rust panic raised while evaluating a
constraint (`Option::unwrap` on `None`). -/
inductive ExecError
  | house (e : AuctionHouseError)
  | transferFailed
  | constraintViolation
  | unwrapNoneAbort
deriving DecidableEq

/-- The `Auction` account record from the source. -/
structure Auction where
  authority : Pubkey
  token_mint : Pubkey
  token_account : Pubkey
  treasury_mint : Pubkey
  token_size : Nat
  minimum_price : Nat
  current_price : Nat
  end_time : Int
  highest_bidder : Option Pubkey
  status : Nat
  bump : Nat
deriving DecidableEq

/-- The `Bid` account record from the source. -/
structure Bid where
  auction : Pubkey
  bidder : Pubkey
  amount : Nat
  timestamp : Int
deriving DecidableEq

/-- One requested SPL-token move: the `Transfer { from, to, authority }`
accounts plus the amount passed to `token::transfer`. -/
structure TransferOp where
  fromAcct : Pubkey
  toAcct : Pubkey
  authority : Pubkey
  amount : Nat
deriving DecidableEq

/-- The data of an SPL token account that the Anchor constraints read:
its address, its `owner` field and its `mint` field. -/
structure TokenAcct where
  key : Pubkey
  owner : Pubkey
  mint : Pubkey
deriving DecidableEq

/-- Exit state of a `place_bid` invocation: the abort cause (if any), the
`auction` record as left by the body, the `bid` record if one was written,
and the successful transfers in order. -/
structure BidOutcome where
  err : Option ExecError
  auction : Auction
  bid : Option Bid
  transfers : List TransferOp
deriving DecidableEq

/-- Exit state of an `end_auction` / `cancel_auction` invocation. -/
structure IxOutcome where
  err : Option ExecError
  auction : Auction
  transfers : List TransferOp
deriving DecidableEq

/-- `create_auction` (lib.rs lines 36-58): writes a fresh `Auction` record
with `current_price = minimum_price`, `highest_bidder = None` and
`status = AuctionStatus::Active as u8`.  The Anchor `init` and token-account
constraints of `CreateAuction` only gate which calls reach this body; they
create no other state, so the record itself is the whole outcome. -/
def create_auction (authority token_mint token_account treasury_mint : Pubkey)
    (token_size minimum_price : Nat) (end_time : Int) (auction_bump : Nat) :
    Auction :=
  { authority := authority
    token_mint := token_mint
    token_account := token_account
    treasury_mint := treasury_mint
    token_size := token_size
    minimum_price := minimum_price
    current_price := minimum_price
    end_time := end_time
    highest_bidder := none
    status := AuctionStatus.Active.toU8
    bump := auction_bump }

/-- `place_bid` handler body (lib.rs lines 60-109).  `auction_key` is
`auction.key()`, `now` is `Clock::get()?.unix_timestamp` (read twice in the
source within the same transaction, hence equal), and the three `require!`
checks run in source order before the transfer and the record mutations. -/
def place_bid (auction : Auction) (auction_key : Pubkey)
    (bidder bidder_token_account auction_token_account : Pubkey)
    (now : Int) (bid_amount : Nat) (transfer_ok : TransferOp → Bool) :
    BidOutcome :=
  if auction.status = AuctionStatus.Active.toU8 then
    if now < auction.end_time then
      if auction.current_price < bid_amount then
        let t : TransferOp :=
          { fromAcct := bidder_token_account
            toAcct := auction_token_account
            authority := bidder
            amount := bid_amount }
        if transfer_ok t then
          { err := none
            auction := { auction with
                          current_price := bid_amount
                          highest_bidder := some bidder }
            bid := some { auction := auction_key
                          bidder := bidder
                          amount := bid_amount
                          timestamp := now }
            transfers := [t] }
        else
          { err := some ExecError.transferFailed
            auction := auction
            bid := none
            transfers := [] }
      else
        { err := some (ExecError.house AuctionHouseError.BidTooLow)
          auction := auction
          bid := none
          transfers := [] }
    else
      { err := some (ExecError.house AuctionHouseError.AuctionEnded)
        auction := auction
        bid := none
        transfers := [] }
  else
    { err := some (ExecError.house AuctionHouseError.AuctionNotActive)
      auction := auction
      bid := none
      transfers := [] }

/-- `end_auction` handler body (lib.rs lines 111-145): the time check runs
first, then the status check; the status mutation to `Ended` precedes the
conditional winner transfer. -/
def end_auction (auction : Auction)
    (auction_token_account bidder_token_account auction_authority : Pubkey)
    (now : Int) (transfer_ok : TransferOp → Bool) : IxOutcome :=
  if auction.end_time ≤ now then
    if auction.status = AuctionStatus.Active.toU8 then
      let a2 := { auction with status := AuctionStatus.Ended.toU8 }
      match auction.highest_bidder with
      | some _ =>
        let t : TransferOp :=
          { fromAcct := auction_token_account
            toAcct := bidder_token_account
            authority := auction_authority
            amount := auction.token_size }
        if transfer_ok t then
          { err := none, auction := a2, transfers := [t] }
        else
          { err := some ExecError.transferFailed, auction := a2, transfers := [] }
      | none =>
        { err := none, auction := a2, transfers := [] }
    else
      { err := some (ExecError.house AuctionHouseError.AuctionNotActive)
        auction := auction
        transfers := [] }
  else
    { err := some (ExecError.house AuctionHouseError.AuctionNotEnded)
      auction := auction
      transfers := [] }

/-- `cancel_auction` handler body (lib.rs lines 147-179): authority check,
then status check, then the status mutation to `Cancelled`, then the
asset-return transfer. -/
def cancel_auction (auction : Auction) (caller : Pubkey)
    (auction_token_account owner_token_account auction_authority : Pubkey)
    (transfer_ok : TransferOp → Bool) : IxOutcome :=
  if auction.authority = caller then
    if auction.status = AuctionStatus.Active.toU8 then
      let a2 := { auction with status := AuctionStatus.Cancelled.toU8 }
      let t : TransferOp :=
        { fromAcct := auction_token_account
          toAcct := owner_token_account
          authority := auction_authority
          amount := auction.token_size }
      if transfer_ok t then
        { err := none, auction := a2, transfers := [t] }
      else
        { err := some ExecError.transferFailed, auction := a2, transfers := [] }
    else
      { err := some (ExecError.house AuctionHouseError.AuctionNotActive)
        auction := auction
        transfers := [] }
  else
    { err := some (ExecError.house AuctionHouseError.Unauthorized)
      auction := auction
      transfers := [] }

/-- The non-auction accounts of the `PlaceBid` accounts struct that carry
constraints: the bidder's currency account, the auction's escrow currency
account, and the bidder signer. -/
structure PlaceBidAccts where
  bidder_token_account : TokenAcct
  auction_token_account : TokenAcct
  bidder : Pubkey
deriving DecidableEq

/-- `place_bid` instruction: Anchor first checks the `PlaceBid` constraints
(lib.rs lines 243-268) in struct order — `bidder_token_account.owner ==
bidder.key()`, `bidder_token_account.mint == auction.treasury_mint`,
`auction_token_account.mint == auction.treasury_mint` — then runs the
handler body. -/
def place_bid_ix (auction : Auction) (auction_key : Pubkey)
    (accts : PlaceBidAccts) (now : Int) (bid_amount : Nat)
    (transfer_ok : TransferOp → Bool) : BidOutcome :=
  if accts.bidder_token_account.owner = accts.bidder then
    if accts.bidder_token_account.mint = auction.treasury_mint then
      if accts.auction_token_account.mint = auction.treasury_mint then
        place_bid auction auction_key accts.bidder
          accts.bidder_token_account.key accts.auction_token_account.key
          now bid_amount transfer_ok
      else
        { err := some ExecError.constraintViolation
          auction := auction
          bid := none
          transfers := [] }
    else
      { err := some ExecError.constraintViolation
        auction := auction
        bid := none
        transfers := [] }
  else
    { err := some ExecError.constraintViolation
      auction := auction
      bid := none
      transfers := [] }

/-- The constrained accounts of the `EndAuction` accounts struct (lib.rs
lines 270-286).  `auction_authority` is an `UncheckedAccount` and the struct
declares no `Signer` at all. -/
structure EndAuctionAccts where
  auction_token_account : TokenAcct
  bidder_token_account : TokenAcct
  auction_authority : Pubkey
deriving DecidableEq

/-- `end_auction` instruction.  `caller` is the identity invoking the
transaction; `EndAuction` contains no `Signer`, so no constraint and no
handler statement reads it.  Anchor checks, in struct order,
`auction_token_account.key() == auction.token_account`, then
`bidder_token_account.owner == auction.highest_bidder.unwrap()` — which
panics (`ExecError.unwrapNoneAbort`) when `highest_bidder` is `None` —
then `bidder_token_account.mint == auction.token_mint`, and only then runs
the handler body. -/
def end_auction_ix (caller : Pubkey) (auction : Auction)
    (accts : EndAuctionAccts) (now : Int)
    (transfer_ok : TransferOp → Bool) : IxOutcome :=
  if accts.auction_token_account.key = auction.token_account then
    match auction.highest_bidder with
    | none =>
      { err := some ExecError.unwrapNoneAbort
        auction := auction
        transfers := [] }
    | some w =>
      if accts.bidder_token_account.owner = w then
        if accts.bidder_token_account.mint = auction.token_mint then
          end_auction auction accts.auction_token_account.key
            accts.bidder_token_account.key accts.auction_authority
            now transfer_ok
        else
          { err := some ExecError.constraintViolation
            auction := auction
            transfers := [] }
      else
        { err := some ExecError.constraintViolation
          auction := auction
          transfers := [] }
  else
    { err := some ExecError.constraintViolation
      auction := auction
      transfers := [] }

/-- The constrained accounts of the `CancelAuction` accounts struct (lib.rs
lines 288-305): the auction escrow account, the seller's receiving account,
the auction-authority PDA, and the `authority` signer (the caller). -/
structure CancelAuctionAccts where
  auction_token_account : TokenAcct
  owner_token_account : TokenAcct
  auction_authority : Pubkey
  authority : Pubkey
deriving DecidableEq

/-- `cancel_auction` instruction: Anchor checks, in struct order,
`auction_token_account.key() == auction.token_account`,
`owner_token_account.owner == auction.authority`,
`owner_token_account.mint == auction.token_mint`, then runs the handler. -/
def cancel_auction_ix (auction : Auction) (accts : CancelAuctionAccts)
    (transfer_ok : TransferOp → Bool) : IxOutcome :=
  if accts.auction_token_account.key = auction.token_account then
    if accts.owner_token_account.owner = auction.authority then
      if accts.owner_token_account.mint = auction.token_mint then
        cancel_auction auction accts.authority
          accts.auction_token_account.key accts.owner_token_account.key
          accts.auction_authority transfer_ok
      else
        { err := some ExecError.constraintViolation
          auction := auction
          transfers := [] }
    else
      { err := some ExecError.constraintViolation
        auction := auction
        transfers := [] }
  else
    { err := some ExecError.constraintViolation
      auction := auction
      transfers := [] }

/-- The `Auction` record as the Solana runtime leaves it after a `place_bid`
invocation: a failing instruction has all its account mutations reverted. -/
def bidCommitted (a : Auction) (o : BidOutcome) : Auction :=
  match o.err with
  | some _ => a
  | none => o.auction

/-- The `Auction` record as the runtime leaves it after an `end_auction` or
`cancel_auction` invocation (mutations of a failing instruction revert). -/
def ixCommitted (a : Auction) (o : IxOutcome) : Auction :=
  match o.err with
  | some _ => a
  | none => o.auction

/-- All `Auction` records reachable from a `create_auction` by any sequence
of committed `place_bid` / `end_auction` / `cancel_auction` invocations with
arbitrary accounts, clock values and transfer-primitive outcomes. -/
inductive Reachable : Auction → Prop
  | created (authority token_mint token_account treasury_mint : Pubkey)
      (token_size minimum_price : Nat) (end_time : Int) (auction_bump : Nat) :
      Reachable (create_auction authority token_mint token_account
        treasury_mint token_size minimum_price end_time auction_bump)
  | bid (a : Auction) (k bd bta ata : Pubkey) (now : Int) (amt : Nat)
      (tok : TransferOp → Bool) : Reachable a →
      Reachable (bidCommitted a (place_bid a k bd bta ata now amt tok))
  | ended (a : Auction) (ata bta aa : Pubkey) (now : Int)
      (tok : TransferOp → Bool) : Reachable a →
      Reachable (ixCommitted a (end_auction a ata bta aa now tok))
  | cancelled (a : Auction) (c ata ota aa : Pubkey)
      (tok : TransferOp → Bool) : Reachable a →
      Reachable (ixCommitted a (cancel_auction a c ata ota aa tok))

/-- Reachability tracking whether some successful `place_bid` has occurred:
`ReachableB a b` means `a` is reachable and `b` records whether any
`place_bid` along the way committed (returned without error). -/
inductive ReachableB : Auction → Bool → Prop
  | created (authority token_mint token_account treasury_mint : Pubkey)
      (token_size minimum_price : Nat) (end_time : Int) (auction_bump : Nat) :
      ReachableB (create_auction authority token_mint token_account
        treasury_mint token_size minimum_price end_time auction_bump) false
  | bid (a : Auction) (b : Bool) (k bd bta ata : Pubkey) (now : Int)
      (amt : Nat) (tok : TransferOp → Bool) : ReachableB a b →
      ReachableB (bidCommitted a (place_bid a k bd bta ata now amt tok))
        (b || (place_bid a k bd bta ata now amt tok).err.isNone)
  | ended (a : Auction) (b : Bool) (ata bta aa : Pubkey) (now : Int)
      (tok : TransferOp → Bool) : ReachableB a b →
      ReachableB (ixCommitted a (end_auction a ata bta aa now tok)) b
  | cancelled (a : Auction) (b : Bool) (c ata ota aa : Pubkey)
      (tok : TransferOp → Bool) : ReachableB a b →
      ReachableB (ixCommitted a (cancel_auction a c ata ota aa tok)) b

/-- Shape of a successful `place_bid`: success forces the three validations
to have passed (in particular `current_price < bid_amount`) and the exit
auction is the input with `current_price` and `highest_bidder` updated. -/
theorem place_bid_ok_fields (a : Auction) (k bd bta ata : Pubkey) (now : Int)
    (amt : Nat) (tok : TransferOp → Bool)
    (h : (place_bid a k bd bta ata now amt tok).err = none) :
    a.current_price < amt ∧
    (place_bid a k bd bta ata now amt tok).auction =
      { a with current_price := amt, highest_bidder := some bd } := by
  simp only [place_bid] at h ⊢
  split_ifs at h ⊢ <;> simp_all

/-- The exit state of `end_auction` never changes `minimum_price`,
`current_price` or `highest_bidder` of the auction record. -/
theorem end_auction_preserves_fields (a : Auction) (ata bta aa : Pubkey)
    (now : Int) (tok : TransferOp → Bool) :
    (end_auction a ata bta aa now tok).auction.minimum_price = a.minimum_price ∧
    (end_auction a ata bta aa now tok).auction.current_price = a.current_price ∧
    (end_auction a ata bta aa now tok).auction.highest_bidder = a.highest_bidder := by
  cases hb : a.highest_bidder <;>
    simp only [end_auction, hb] <;> split_ifs <;> simp_all [hb]

/-- The exit state of `cancel_auction` never changes `minimum_price`,
`current_price` or `highest_bidder` of the auction record. -/
theorem cancel_auction_preserves_fields (a : Auction) (c ata ota aa : Pubkey)
    (tok : TransferOp → Bool) :
    (cancel_auction a c ata ota aa tok).auction.minimum_price = a.minimum_price ∧
    (cancel_auction a c ata ota aa tok).auction.current_price = a.current_price ∧
    (cancel_auction a c ata ota aa tok).auction.highest_bidder = a.highest_bidder := by
  simp only [cancel_auction]
  split_ifs <;> simp_all

/-- Claim C2: `place_bid` validates in source order and fails with exactly
the matching error: `AuctionNotActive` when the status is not Active;
otherwise `AuctionEnded` when the clock has reached `end_time`; otherwise
`BidTooLow` when the bid is less than or equal to `current_price` (the
comparison is strict, so a bid equal to `current_price` is rejected). -/
theorem place_bid_validation_order (a : Auction) (k bd bta ata : Pubkey)
    (now : Int) (amt : Nat) (tok : TransferOp → Bool) :
    (a.status ≠ AuctionStatus.Active.toU8 →
      (place_bid a k bd bta ata now amt tok).err =
        some (ExecError.house AuctionHouseError.AuctionNotActive)) ∧
    (a.status = AuctionStatus.Active.toU8 → a.end_time ≤ now →
      (place_bid a k bd bta ata now amt tok).err =
        some (ExecError.house AuctionHouseError.AuctionEnded)) ∧
    (a.status = AuctionStatus.Active.toU8 → now < a.end_time →
      amt ≤ a.current_price →
      (place_bid a k bd bta ata now amt tok).err =
        some (ExecError.house AuctionHouseError.BidTooLow)) := by
  refine ⟨fun h1 => ?_, fun h1 h2 => ?_, fun h1 h2 h3 => ?_⟩ <;>
    unfold place_bid <;> split_ifs <;> simp_all <;> omega

/-- Witness for C2: each of the three validation failures observed on a
concrete auction (status Ended; expired clock; bid equal to the current
price). -/
theorem place_bid_validation_order_witness :
    (place_bid ⟨1, 2, 3, 4, 5, 100, 100, 50, none, 1, 0⟩ 9 7 70 71 10 150
      (fun _ => true)).err =
        some (ExecError.house AuctionHouseError.AuctionNotActive) ∧
    (place_bid ⟨1, 2, 3, 4, 5, 100, 100, 50, none, 0, 0⟩ 9 7 70 71 60 150
      (fun _ => true)).err =
        some (ExecError.house AuctionHouseError.AuctionEnded) ∧
    (place_bid ⟨1, 2, 3, 4, 5, 100, 100, 50, none, 0, 0⟩ 9 7 70 71 10 100
      (fun _ => true)).err =
        some (ExecError.house AuctionHouseError.BidTooLow) :=
  ⟨(place_bid_validation_order ⟨1, 2, 3, 4, 5, 100, 100, 50, none, 1, 0⟩
      9 7 70 71 10 150 (fun _ => true)).1 (by decide),
   (place_bid_validation_order ⟨1, 2, 3, 4, 5, 100, 100, 50, none, 0, 0⟩
      9 7 70 71 60 150 (fun _ => true)).2.1 rfl (by decide),
   (place_bid_validation_order ⟨1, 2, 3, 4, 5, 100, 100, 50, none, 0, 0⟩
      9 7 70 71 10 100 (fun _ => true)).2.2 rfl (by decide) (by decide)⟩

/-- Claim C4: whenever `place_bid` aborts — a validation failure or a
failure of the transfer primitive itself — the auction record is unchanged,
no `Bid` record is written and no transfer happened: no record mutation
precedes the transfer in the body. -/
theorem place_bid_error_state_unchanged (a : Auction) (k bd bta ata : Pubkey)
    (now : Int) (amt : Nat) (tok : TransferOp → Bool)
    (h : (place_bid a k bd bta ata now amt tok).err.isSome = true) :
    (place_bid a k bd bta ata now amt tok).auction = a ∧
    (place_bid a k bd bta ata now amt tok).bid = none ∧
    (place_bid a k bd bta ata now amt tok).transfers = [] := by
  simp only [place_bid] at h ⊢
  split_ifs at h ⊢ <;> simp_all

/-- Witness for C4: a bid that passes all validations but whose escrow
transfer fails leaves the auction record, the bid slot and the transfer
list untouched. -/
theorem place_bid_error_state_unchanged_witness :
    (place_bid ⟨1, 2, 3, 4, 5, 100, 100, 50, none, 0, 0⟩ 9 7 70 71 10 150
      (fun _ => false)).err.isSome = true ∧
    (place_bid ⟨1, 2, 3, 4, 5, 100, 100, 50, none, 0, 0⟩ 9 7 70 71 10 150
      (fun _ => false)).auction = ⟨1, 2, 3, 4, 5, 100, 100, 50, none, 0, 0⟩ ∧
    (place_bid ⟨1, 2, 3, 4, 5, 100, 100, 50, none, 0, 0⟩ 9 7 70 71 10 150
      (fun _ => false)).bid = none ∧
    (place_bid ⟨1, 2, 3, 4, 5, 100, 100, 50, none, 0, 0⟩ 9 7 70 71 10 150
      (fun _ => false)).transfers = [] :=
  ⟨by decide,
   place_bid_error_state_unchanged ⟨1, 2, 3, 4, 5, 100, 100, 50, none, 0, 0⟩
     9 7 70 71 10 150 (fun _ => false) (by decide)⟩

/-- Claim C7: two successive successful bids on the same auction strictly
increase `current_price`: the second amount beats the price left by the
first, and the resulting price is the second amount. -/
theorem successive_bids_strictly_increase (a : Auction)
    (k1 bd1 bta1 ata1 : Pubkey) (now1 : Int) (amt1 : Nat)
    (tok1 : TransferOp → Bool)
    (k2 bd2 bta2 ata2 : Pubkey) (now2 : Int) (amt2 : Nat)
    (tok2 : TransferOp → Bool)
    (h1 : (place_bid a k1 bd1 bta1 ata1 now1 amt1 tok1).err = none)
    (h2 : (place_bid (place_bid a k1 bd1 bta1 ata1 now1 amt1 tok1).auction
            k2 bd2 bta2 ata2 now2 amt2 tok2).err = none) :
    (place_bid a k1 bd1 bta1 ata1 now1 amt1 tok1).auction.current_price < amt2 ∧
    (place_bid (place_bid a k1 bd1 bta1 ata1 now1 amt1 tok1).auction
        k2 bd2 bta2 ata2 now2 amt2 tok2).auction.current_price = amt2 ∧
    (place_bid a k1 bd1 bta1 ata1 now1 amt1 tok1).auction.current_price <
      (place_bid (place_bid a k1 bd1 bta1 ata1 now1 amt1 tok1).auction
        k2 bd2 bta2 ata2 now2 amt2 tok2).auction.current_price := by
  obtain ⟨hlt2, heq2⟩ := place_bid_ok_fields _ k2 bd2 bta2 ata2 now2 amt2 tok2 h2
  refine ⟨hlt2, ?_, ?_⟩ <;> rw [heq2]
  exact hlt2

/-- Witness for C7: bid 150 then bid 200 on a fresh auction with minimum
price 100; the price climbs 100 < 150 < 200. -/
theorem successive_bids_strictly_increase_witness :
    (place_bid (create_auction 1 2 3 4 5 100 50 0) 9 7 70 71 10 150
      (fun _ => true)).err = none ∧
    (place_bid (place_bid (create_auction 1 2 3 4 5 100 50 0) 9 7 70 71 10 150
        (fun _ => true)).auction 9 8 80 71 20 200 (fun _ => true)).err = none ∧
    (place_bid (create_auction 1 2 3 4 5 100 50 0) 9 7 70 71 10 150
        (fun _ => true)).auction.current_price <
      (place_bid (place_bid (create_auction 1 2 3 4 5 100 50 0) 9 7 70 71 10 150
          (fun _ => true)).auction 9 8 80 71 20 200
        (fun _ => true)).auction.current_price :=
  ⟨by decide, by decide,
   (successive_bids_strictly_increase (create_auction 1 2 3 4 5 100 50 0)
      9 7 70 71 10 150 (fun _ => true) 9 8 80 71 20 200 (fun _ => true)
      (by decide) (by decide)).2.2⟩

/-- Claim C3: a successful `place_bid` of amount `A` performs exactly one
escrow transfer of `A` from the bidder's currency account (owned by the
bidder, by the Anchor constraint) to the auction's escrow account,
authorized by the bidder; afterwards `current_price = A`,
`highest_bidder = Some(bidder)`, and the `Bid` record holds the auction
key, the bidder, the amount and the clock timestamp. -/
theorem place_bid_success_effects (a : Auction) (k : Pubkey)
    (accts : PlaceBidAccts) (now : Int) (amt : Nat) (tok : TransferOp → Bool)
    (h : (place_bid_ix a k accts now amt tok).err = none) :
    (place_bid_ix a k accts now amt tok).transfers =
      [{ fromAcct := accts.bidder_token_account.key
         toAcct := accts.auction_token_account.key
         authority := accts.bidder
         amount := amt }] ∧
    accts.bidder_token_account.owner = accts.bidder ∧
    (place_bid_ix a k accts now amt tok).auction.current_price = amt ∧
    (place_bid_ix a k accts now amt tok).auction.highest_bidder =
      some accts.bidder ∧
    (place_bid_ix a k accts now amt tok).bid =
      some { auction := k, bidder := accts.bidder, amount := amt,
             timestamp := now } := by
  simp only [place_bid_ix, place_bid] at h ⊢
  split_ifs at h ⊢ <;> simp_all

/-- Witness for C3: a concrete successful bid of 150 by bidder 7 moves 150
from account 70 to escrow account 71 and stamps the records. -/
theorem place_bid_success_effects_witness :
    (place_bid_ix (create_auction 1 2 3 4 5 100 50 0) 9
      ⟨⟨70, 7, 4⟩, ⟨71, 99, 4⟩, 7⟩ 10 150 (fun _ => true)).err = none ∧
    ((place_bid_ix (create_auction 1 2 3 4 5 100 50 0) 9
        ⟨⟨70, 7, 4⟩, ⟨71, 99, 4⟩, 7⟩ 10 150 (fun _ => true)).transfers =
      [{ fromAcct := (⟨⟨70, 7, 4⟩, ⟨71, 99, 4⟩, 7⟩ :
            PlaceBidAccts).bidder_token_account.key
         toAcct := (⟨⟨70, 7, 4⟩, ⟨71, 99, 4⟩, 7⟩ :
            PlaceBidAccts).auction_token_account.key
         authority := (⟨⟨70, 7, 4⟩, ⟨71, 99, 4⟩, 7⟩ : PlaceBidAccts).bidder
         amount := 150 }] ∧
      (⟨⟨70, 7, 4⟩, ⟨71, 99, 4⟩, 7⟩ :
          PlaceBidAccts).bidder_token_account.owner =
        (⟨⟨70, 7, 4⟩, ⟨71, 99, 4⟩, 7⟩ : PlaceBidAccts).bidder ∧
      (place_bid_ix (create_auction 1 2 3 4 5 100 50 0) 9
          ⟨⟨70, 7, 4⟩, ⟨71, 99, 4⟩, 7⟩ 10 150
          (fun _ => true)).auction.current_price = 150 ∧
      (place_bid_ix (create_auction 1 2 3 4 5 100 50 0) 9
          ⟨⟨70, 7, 4⟩, ⟨71, 99, 4⟩, 7⟩ 10 150
          (fun _ => true)).auction.highest_bidder =
        some (⟨⟨70, 7, 4⟩, ⟨71, 99, 4⟩, 7⟩ : PlaceBidAccts).bidder ∧
      (place_bid_ix (create_auction 1 2 3 4 5 100 50 0) 9
          ⟨⟨70, 7, 4⟩, ⟨71, 99, 4⟩, 7⟩ 10 150 (fun _ => true)).bid =
        some { auction := 9
               bidder := (⟨⟨70, 7, 4⟩, ⟨71, 99, 4⟩, 7⟩ : PlaceBidAccts).bidder
               amount := 150
               timestamp := 10 }) :=
  ⟨by decide,
   place_bid_success_effects (create_auction 1 2 3 4 5 100 50 0) 9
     ⟨⟨70, 7, 4⟩, ⟨71, 99, 4⟩, 7⟩ 10 150 (fun _ => true) (by decide)⟩

/-- Claim C6 counterexample: on an auction whose status is Ended, calling
`end_auction` before `end_time` fails with `AuctionNotEnded`, not with
`AuctionNotActive` as the claim states (the time check runs first). -/
theorem terminal_end_auction_error_counterexample :
    (end_auction ⟨1, 2, 3, 4, 5, 100, 100, 50, none, 1, 0⟩ 6 7 8 10
      (fun _ => true)).err =
        some (ExecError.house AuctionHouseError.AuctionNotEnded) ∧
    (end_auction ⟨1, 2, 3, 4, 5, 100, 100, 50, none, 1, 0⟩ 6 7 8 10
      (fun _ => true)).err ≠
        some (ExecError.house AuctionHouseError.AuctionNotActive) := by
  decide

/-- Claim C6 (amended): on an auction whose status is Ended or Cancelled,
every invocation of `place_bid`, `end_auction` or `cancel_auction` fails —
`place_bid` with `AuctionNotActive`; `end_auction` with `AuctionNotEnded`
when called before `end_time` and `AuctionNotActive` otherwise;
`cancel_auction` with `Unauthorized` when the caller is not the authority
and `AuctionNotActive` otherwise — and leaves the auction record (in
particular status, current_price and highest_bidder) unchanged, with no
bid record and no transfer. -/
theorem terminal_state_immutable (a : Auction)
    (h : a.status = AuctionStatus.Ended.toU8 ∨
         a.status = AuctionStatus.Cancelled.toU8)
    (k bd bta ata : Pubkey) (now1 : Int) (amt : Nat)
    (tok1 : TransferOp → Bool)
    (eta ebta eaa : Pubkey) (now2 : Int) (tok2 : TransferOp → Bool)
    (c cata cota caa : Pubkey) (tok3 : TransferOp → Bool) :
    ((place_bid a k bd bta ata now1 amt tok1).err =
        some (ExecError.house AuctionHouseError.AuctionNotActive) ∧
      (place_bid a k bd bta ata now1 amt tok1).auction = a ∧
      (place_bid a k bd bta ata now1 amt tok1).bid = none ∧
      (place_bid a k bd bta ata now1 amt tok1).transfers = []) ∧
    ((end_auction a eta ebta eaa now2 tok2).err =
        some (ExecError.house
          (if now2 < a.end_time then AuctionHouseError.AuctionNotEnded
           else AuctionHouseError.AuctionNotActive)) ∧
      (end_auction a eta ebta eaa now2 tok2).auction = a ∧
      (end_auction a eta ebta eaa now2 tok2).transfers = []) ∧
    ((cancel_auction a c cata cota caa tok3).err =
        some (ExecError.house
          (if a.authority = c then AuctionHouseError.AuctionNotActive
           else AuctionHouseError.Unauthorized)) ∧
      (cancel_auction a c cata cota caa tok3).auction = a ∧
      (cancel_auction a c cata cota caa tok3).transfers = []) := by
  have hs : a.status ≠ AuctionStatus.Active.toU8 := by
    rcases h with h | h <;> rw [h] <;> decide
  refine ⟨?_, ?_, ?_⟩
  · simp only [place_bid]
    split_ifs <;> simp_all
  · simp only [end_auction]
    split_ifs <;> try simp_all
    all_goals omega
  · simp only [cancel_auction]
    split_ifs <;> simp_all

/-- Witness for C6: on a concrete Cancelled auction (so the terminal-status
hypothesis holds), a bid fails with `AuctionNotActive` and a repeat cancel
by the authority leaves the record untouched. -/
theorem terminal_state_immutable_witness :
    ((⟨1, 2, 3, 4, 5, 100, 100, 50, none, 2, 0⟩ : Auction).status =
        AuctionStatus.Ended.toU8 ∨
      (⟨1, 2, 3, 4, 5, 100, 100, 50, none, 2, 0⟩ : Auction).status =
        AuctionStatus.Cancelled.toU8) ∧
    (place_bid ⟨1, 2, 3, 4, 5, 100, 100, 50, none, 2, 0⟩ 9 7 70 71 10 150
      (fun _ => true)).err =
        some (ExecError.house AuctionHouseError.AuctionNotActive) ∧
    (cancel_auction ⟨1, 2, 3, 4, 5, 100, 100, 50, none, 2, 0⟩ 1 6 7 8
      (fun _ => true)).auction =
        ⟨1, 2, 3, 4, 5, 100, 100, 50, none, 2, 0⟩ :=
  ⟨Or.inr (by decide),
   (terminal_state_immutable ⟨1, 2, 3, 4, 5, 100, 100, 50, none, 2, 0⟩
      (Or.inr (by decide)) 9 7 70 71 10 150 (fun _ => true) 6 7 8 60
      (fun _ => true) 1 6 7 8 (fun _ => true)).1.1,
   (terminal_state_immutable ⟨1, 2, 3, 4, 5, 100, 100, 50, none, 2, 0⟩
      (Or.inr (by decide)) 9 7 70 71 10 150 (fun _ => true) 6 7 8 60
      (fun _ => true) 1 6 7 8 (fun _ => true)).2.2.2.1⟩

/-- Claim C9: under the `CancelAuction` account constraints,
`cancel_auction` fails `Unauthorized` (leaving the record untouched) for
every caller other than `auction.authority`; fails `AuctionNotActive`
(leaving the record untouched) when the status is not Active — so a second
cancel fails; and on success sets status to Cancelled and performs exactly
one transfer of `token_size` from the auction's asset account back to the
seller's account (owned by the authority). -/
theorem cancel_auction_spec (a : Auction) (accts : CancelAuctionAccts)
    (tok : TransferOp → Bool)
    (h1 : accts.auction_token_account.key = a.token_account)
    (h2 : accts.owner_token_account.owner = a.authority)
    (h3 : accts.owner_token_account.mint = a.token_mint) :
    (accts.authority ≠ a.authority →
      (cancel_auction_ix a accts tok).err =
        some (ExecError.house AuctionHouseError.Unauthorized) ∧
      (cancel_auction_ix a accts tok).auction = a ∧
      (cancel_auction_ix a accts tok).transfers = []) ∧
    (accts.authority = a.authority →
      a.status ≠ AuctionStatus.Active.toU8 →
      (cancel_auction_ix a accts tok).err =
        some (ExecError.house AuctionHouseError.AuctionNotActive) ∧
      (cancel_auction_ix a accts tok).auction = a ∧
      (cancel_auction_ix a accts tok).transfers = []) ∧
    (accts.authority = a.authority →
      a.status = AuctionStatus.Active.toU8 →
      tok { fromAcct := a.token_account
            toAcct := accts.owner_token_account.key
            authority := accts.auction_authority
            amount := a.token_size } = true →
      (cancel_auction_ix a accts tok).err = none ∧
      (cancel_auction_ix a accts tok).auction =
        { a with status := AuctionStatus.Cancelled.toU8 } ∧
      (cancel_auction_ix a accts tok).transfers =
        [{ fromAcct := a.token_account
           toAcct := accts.owner_token_account.key
           authority := accts.auction_authority
           amount := a.token_size }] ∧
      accts.owner_token_account.owner = a.authority) := by
  have hc : cancel_auction_ix a accts tok =
      cancel_auction a accts.authority accts.auction_token_account.key
        accts.owner_token_account.key accts.auction_authority tok := by
    unfold cancel_auction_ix
    rw [if_pos h1, if_pos h2, if_pos h3]
  refine ⟨fun hne => ?_, fun he hst => ?_, fun he hst htok => ?_⟩
  · rw [hc]
    unfold cancel_auction
    rw [if_neg (fun hh => hne hh.symm)]
    exact ⟨rfl, rfl, rfl⟩
  · rw [hc]
    unfold cancel_auction
    rw [if_pos he.symm, if_neg hst]
    exact ⟨rfl, rfl, rfl⟩
  · rw [hc]
    unfold cancel_auction
    rw [if_pos he.symm, if_pos hst]
    simp only [h1]
    rw [if_pos htok]
    exact ⟨rfl, rfl, rfl, h2⟩

/-- Witness for C9: on a concrete Active auction, the authority's cancel
succeeds, flips status to Cancelled and returns the 5 escrowed tokens from
the escrow account 3 to the seller's account 30. -/
theorem cancel_auction_spec_witness :
    (⟨⟨3, 9, 9⟩, ⟨30, 1, 2⟩, 8, 1⟩ : CancelAuctionAccts).authority =
      (create_auction 1 2 3 4 5 100 50 0).authority ∧
    (cancel_auction_ix (create_auction 1 2 3 4 5 100 50 0)
      ⟨⟨3, 9, 9⟩, ⟨30, 1, 2⟩, 8, 1⟩ (fun _ => true)).err = none ∧
    (cancel_auction_ix (create_auction 1 2 3 4 5 100 50 0)
      ⟨⟨3, 9, 9⟩, ⟨30, 1, 2⟩, 8, 1⟩ (fun _ => true)).auction =
      { create_auction 1 2 3 4 5 100 50 0 with
          status := AuctionStatus.Cancelled.toU8 } ∧
    (cancel_auction_ix (create_auction 1 2 3 4 5 100 50 0)
      ⟨⟨3, 9, 9⟩, ⟨30, 1, 2⟩, 8, 1⟩ (fun _ => true)).transfers =
      [{ fromAcct := (create_auction 1 2 3 4 5 100 50 0).token_account
         toAcct := (⟨⟨3, 9, 9⟩, ⟨30, 1, 2⟩, 8, 1⟩ :
            CancelAuctionAccts).owner_token_account.key
         authority := (⟨⟨3, 9, 9⟩, ⟨30, 1, 2⟩, 8, 1⟩ :
            CancelAuctionAccts).auction_authority
         amount := (create_auction 1 2 3 4 5 100 50 0).token_size }] :=
  have happ := (cancel_auction_spec (create_auction 1 2 3 4 5 100 50 0)
    ⟨⟨3, 9, 9⟩, ⟨30, 1, 2⟩, 8, 1⟩ (fun _ => true) (by decide) (by decide)
    (by decide)).2.2 (by decide) (by decide) (by decide)
  ⟨by decide, happ.1, happ.2.1, happ.2.2.1⟩

/-- Claim C10: `end_auction` performs no caller-authorization check: the
`EndAuction` accounts declare no signer, so the instruction's outcome is
the same function of the auction state for every caller identity, and it
never fails with `Unauthorized`. -/
theorem end_auction_caller_independent (c1 c2 : Pubkey) (a : Auction)
    (accts : EndAuctionAccts) (now : Int) (tok : TransferOp → Bool) :
    end_auction_ix c1 a accts now tok = end_auction_ix c2 a accts now tok ∧
    (end_auction_ix c1 a accts now tok).err ≠
      some (ExecError.house AuctionHouseError.Unauthorized) := by
  refine ⟨rfl, ?_⟩
  cases hb : a.highest_bidder <;>
    simp only [end_auction_ix, end_auction, hb] <;>
    split_ifs <;> simp_all

/-- Witness for C10: two different callers, 21 and 22, obtain identical
outcomes on a concrete ended auction, and the outcome is not
`Unauthorized`. -/
theorem end_auction_caller_independent_witness :
    end_auction_ix 21 ⟨1, 2, 3, 4, 5, 100, 150, 50, some 7, 0, 0⟩
        ⟨⟨3, 9, 9⟩, ⟨80, 7, 2⟩, 8⟩ 60 (fun _ => true) =
      end_auction_ix 22 ⟨1, 2, 3, 4, 5, 100, 150, 50, some 7, 0, 0⟩
        ⟨⟨3, 9, 9⟩, ⟨80, 7, 2⟩, 8⟩ 60 (fun _ => true) ∧
    (end_auction_ix 21 ⟨1, 2, 3, 4, 5, 100, 150, 50, some 7, 0, 0⟩
        ⟨⟨3, 9, 9⟩, ⟨80, 7, 2⟩, 8⟩ 60 (fun _ => true)).err ≠
      some (ExecError.house AuctionHouseError.Unauthorized) :=
  end_auction_caller_independent 21 22
    ⟨1, 2, 3, 4, 5, 100, 150, 50, some 7, 0, 0⟩
    ⟨⟨3, 9, 9⟩, ⟨80, 7, 2⟩, 8⟩ 60 (fun _ => true)

/-- Claim C1 (code bug): on a concrete Active auction past its deadline
with no bids, `end_auction` does not succeed as the claim and the handler's
own `None` branch intend: the `EndAuction` constraint
`bidder_token_account.owner == auction.highest_bidder.unwrap()` panics on
`None`, aborting the instruction before the handler, so the status never
becomes Ended. -/
theorem end_auction_no_bidder_aborts :
    (end_auction_ix 7 (create_auction 1 2 3 4 5 100 10 0)
      ⟨⟨3, 9, 9⟩, ⟨8, 9, 2⟩, 6⟩ 20 (fun _ => true)).err =
        some ExecError.unwrapNoneAbort ∧
    (end_auction_ix 7 (create_auction 1 2 3 4 5 100 10 0)
      ⟨⟨3, 9, 9⟩, ⟨8, 9, 2⟩, 6⟩ 20 (fun _ => true)).auction.status =
        AuctionStatus.Active.toU8 := by
  decide

/-- Claim C5: every auction reachable by any sequence of committed
operations satisfies `minimum_price ≤ current_price`: creation initializes
the price to the minimum and every operation preserves the inequality. -/
theorem reachable_current_price_ge_minimum (a : Auction)
    (h : Reachable a) : a.minimum_price ≤ a.current_price := by
  induction h with
  | created authority token_mint token_account treasury_mint token_size
      minimum_price end_time auction_bump =>
    simp [create_auction]
  | bid a k bd bta ata now amt tok hr ih =>
    cases he : (place_bid a k bd bta ata now amt tok).err with
    | some e => simpa [bidCommitted, he] using ih
    | none =>
      obtain ⟨hlt, heq⟩ := place_bid_ok_fields a k bd bta ata now amt tok he
      simp [bidCommitted, he, heq]
      omega
  | ended a ata bta aa now tok hr ih =>
    have hp := end_auction_preserves_fields a ata bta aa now tok
    cases he : (end_auction a ata bta aa now tok).err with
    | some e => simpa [ixCommitted, he] using ih
    | none => simpa [ixCommitted, he, hp.1, hp.2.1] using ih
  | cancelled a c ata ota aa tok hr ih =>
    have hp := cancel_auction_preserves_fields a c ata ota aa tok
    cases he : (cancel_auction a c ata ota aa tok).err with
    | some e => simpa [ixCommitted, he] using ih
    | none => simpa [ixCommitted, he, hp.1, hp.2.1] using ih

/-- Witness for C5: a freshly created auction is reachable and satisfies
the price invariant. -/
theorem reachable_current_price_ge_minimum_witness :
    Reachable (create_auction 1 2 3 4 5 100 50 0) ∧
    (create_auction 1 2 3 4 5 100 50 0).minimum_price ≤
      (create_auction 1 2 3 4 5 100 50 0).current_price :=
  ⟨Reachable.created 1 2 3 4 5 100 50 0,
   reachable_current_price_ge_minimum _ (Reachable.created 1 2 3 4 5 100 50 0)⟩

/-- Claim C8: along every reachable history, `highest_bidder` is absent
exactly when no successful `place_bid` has occurred: creation sets it to
`None`, only a committed bid sets it to `Some bidder`, and no operation
resets it. -/
theorem highest_bidder_none_iff_no_successful_bid (a : Auction) (b : Bool)
    (h : ReachableB a b) : a.highest_bidder = none ↔ b = false := by
  induction h with
  | created authority token_mint token_account treasury_mint token_size
      minimum_price end_time auction_bump =>
    simp [create_auction]
  | bid a b k bd bta ata now amt tok hr ih =>
    cases he : (place_bid a k bd bta ata now amt tok).err with
    | some e => simpa [bidCommitted, he] using ih
    | none =>
      obtain ⟨hlt, heq⟩ := place_bid_ok_fields a k bd bta ata now amt tok he
      simp [bidCommitted, he, heq]
  | ended a b ata bta aa now tok hr ih =>
    have hp := end_auction_preserves_fields a ata bta aa now tok
    cases he : (end_auction a ata bta aa now tok).err with
    | some e => simpa [ixCommitted, he] using ih
    | none => simpa [ixCommitted, he, hp.2.2] using ih
  | cancelled a b c ata ota aa tok hr ih =>
    have hp := cancel_auction_preserves_fields a c ata ota aa tok
    cases he : (cancel_auction a c ata ota aa tok).err with
    | some e => simpa [ixCommitted, he] using ih
    | none => simpa [ixCommitted, he, hp.2.2] using ih

/-- Witness for C8: a freshly created auction is reachable with no
successful bid, and indeed has no highest bidder. -/
theorem highest_bidder_none_iff_witness :
    ReachableB (create_auction 1 2 3 4 5 100 50 0) false ∧
    ((create_auction 1 2 3 4 5 100 50 0).highest_bidder = none ↔
      false = false) :=
  ⟨ReachableB.created 1 2 3 4 5 100 50 0,
   highest_bidder_none_iff_no_successful_bid _ false
     (ReachableB.created 1 2 3 4 5 100 50 0)⟩
